import Mathlib

/-
Verification development for the spine-dashboard analysis core
(spine_dashboard.py).  The computational core consists of:
  compute_angle_from_accel  (angle estimator),
  build_spine_from_angles   (curve builder),
  load_and_analyze_csv      (record loader, cycle reconstructor,
                             metrics aggregator, frame sampler).
The embedding is parametric in a `MathLib` record that models the calls
into Python's math library (math.sin/cos on radians-converted degrees,
math.atan2 scaled to degrees, math.sqrt); every other operation of the
source is embedded directly over a linear ordered field.  Machine floats
are modelled as exact field elements.
-/

set_option maxHeartbeats 1000000
set_option maxRecDepth 4000
set_option linter.unusedSectionVars false

/-- Model of the Python math-library primitives used by the source.
`sinDeg a` models `math.sin(math.radians(a))`, `cosDeg a` models
`math.cos(math.radians(a))`, `atanDeg y x` models
`math.atan2(y, x) * 180.0 / math.pi`, and `sqrt` models `math.sqrt`. -/
structure MathLib (α : Type) where
  sinDeg : α → α
  cosDeg : α → α
  atanDeg : α → α → α
  sqrt : α → α

variable {α : Type} [LinearOrderedField α]

/-- One parsed CSV row: (Timestamp_ms, Sensor_ID, Accel_X, Accel_Y, Accel_Z),
all integer columns (spine_dashboard.py lines 101-107). -/
abbrev Row : Type := ℤ × ℕ × ℤ × ℤ × ℤ

/-- Angle estimator (spine_dashboard.py lines 33-52).
`245 = int(0.03 * 8192)` is the deadzone and `8028 = int(0.98 * 8192)`
the gimbal-lock threshold, exactly as Python evaluates them. -/
def compute_angle_from_accel (M : MathLib α) (ax ay az : ℤ) : α :=
  let xRaw : ℤ := if ax ≠ 0 then ax else 10
  let deadzoneRaw : ℤ := 245
  let yUsed : ℤ := if |ay| < deadzoneRaw then 0 else ay
  let zUsed : ℤ := if |az| < deadzoneRaw then 0 else az
  let angle0 : α := M.atanDeg (M.sqrt ((yUsed * yUsed + zUsed * zUsed : ℤ) : α)) ((|xRaw| : ℤ) : α)
  let angle1 : α := if xRaw < 0 then 180 - angle0 else angle0
  let angle2 : α := if az < 0 then -angle1 else angle1
  if 8028 < |xRaw| ∧ |yUsed| < deadzoneRaw ∧ |zUsed| < deadzoneRaw then
    (if xRaw < 0 then (180 : α) else 0)
  else angle2

/-- The backward vector integration of the curve builder
(spine_dashboard.py lines 60-80).  The Python loop
`for i in range(n - 1, -1, -1)` reads `angles_centered[i]` from the last
index down to 0, i.e. it folds over `angles_centered.reverse`; the
accumulator carries the current point and the grown list of points. -/
def spineLocs (M : MathLib α) (angles : List α) (spacing_cm : α) : List (α × α) :=
  let n : ℕ := angles.length
  let radius : α := spacing_cm / 100
  let angles_centered : List α := (angles.reverse).map (fun a => a - 0)
  let init : (α × α) × List (α × α) := ((0, -(n : α) * radius * (1 / 2)), [])
  (((angles_centered.reverse).foldl (fun st a =>
    let dx := radius * M.sinDeg a
    let dy := radius * M.cosDeg a
    let c := (st.1.1 + dx, st.1.2 + dy)
    (c, st.2 ++ [c])) init).2).reverse

/-- Centering at the centroid and meter-to-centimeter scaling
(spine_dashboard.py lines 83-89). -/
def centerScale (locs : List (α × α)) : List (α × α) :=
  let avg_x : α := (locs.map (fun p => p.1)).sum / (locs.length : α)
  let avg_y : α := (locs.map (fun p => p.2)).sum / (locs.length : α)
  (locs.map (fun p => (p.1 - avg_x, p.2 - avg_y))).map (fun p => (p.1 * 100, p.2 * 100))

/-- Curve builder (spine_dashboard.py lines 55-89): integrate, center, scale;
empty input gives empty output. -/
def build_spine_from_angles (M : MathLib α) (angles : List α) (spacing_cm : α) : List (α × α) :=
  match angles with
  | [] => []
  | _ :: _ => centerScale (spineLocs M angles spacing_cm)

/-- Head/tail trimming (spine_dashboard.py lines 116-139): keep rows with
`first + 5min <= ts <= last - 5min` where first/last are the min/max
timestamps over all rows. -/
def trimRows (rows : List Row) : List Row :=
  match rows with
  | [] => []
  | r :: rs =>
    let first : ℤ := (rs.map (fun t => t.1)).foldl min r.1
    let last : ℤ := (rs.map (fun t => t.1)).foldl max r.1
    let start_cutoff : ℤ := first + 300000
    let end_cutoff : ℤ := last - 300000
    (r :: rs).filter (fun t => start_cutoff ≤ t.1 ∧ t.1 ≤ end_cutoff)

/-- A reading inside a cycle: `(sensor_id, timestamp_ms, angle)`; models the
dict entry `current_cycle[sid] = (ts, angle)` (spine_dashboard.py line 172/176). -/
abbrev Reading (α : Type) : Type := ℕ × ℤ × α

/-- The currently open cycle, if any: `(cycle start time, readings in insertion
order)`.  In the source, `current_cycle_start_time is None` exactly when
`current_cycle` is the empty dict, so both are modelled by one `Option`. -/
abbrev OpenCycle (α : Type) : Type := Option (ℤ × List (Reading α))

/-- The new-cycle test of spine_dashboard.py lines 161-163:
`current_cycle_start_time is None or sid in current_cycle or
 ts - current_cycle_start_time > CYCLE_WINDOW_MS` (window = 100 ms). -/
def startsNewB (openC : OpenCycle α) (ts : ℤ) (sid : ℕ) : Bool :=
  match openC with
  | none => true
  | some (t0, cur) => decide (sid ∈ cur.map (fun r => r.1)) || decide (100 < ts - t0)

/-- Appending the open cycle (if non-empty) to the emitted list
(spine_dashboard.py lines 166-169 and 179-180).  An open cycle is never
empty: it is created with one reading and only grows. -/
def flushOpen (cycles : List (ℤ × List (Reading α))) (openC : OpenCycle α) :
    List (ℤ × List (Reading α)) :=
  match openC with
  | none => cycles
  | some (t0, cur) => cycles ++ [(t0, cur)]

/-- One iteration of the grouping loop (spine_dashboard.py lines 154-176). -/
def cycleStep (M : MathLib α) (st : List (ℤ × List (Reading α)) × OpenCycle α)
    (row : Row) : List (ℤ × List (Reading α)) × OpenCycle α :=
  match row with
  | (ts, sid, ax, ay, az) =>
    let angle := compute_angle_from_accel M ax ay az
    if startsNewB st.2 ts sid then
      (flushOpen st.1 st.2, some (ts, [(sid, ts, angle)]))
    else
      match st.2 with
      | none => (st.1, some (ts, [(sid, ts, angle)]))
      | some (t0, cur) => (st.1, some (t0, cur ++ [(sid, ts, angle)]))

/-- Cycle reconstructor (spine_dashboard.py lines 149-180): fold the grouping
step over the rows, then flush the final open cycle. -/
def groupCycles (M : MathLib α) (rows : List Row) : List (ℤ × List (Reading α)) :=
  let st := rows.foldl (cycleStep M) ([], none)
  flushOpen st.1 st.2

/-- Python dict insert-or-overwrite, preserving key insertion order. -/
def dictSet {K V : Type} [DecidableEq K] : List (K × V) → K → V → List (K × V)
  | [], k, v => [(k, v)]
  | (k', v') :: rest, k, v =>
    if k' = k then (k, v) :: rest else (k', v') :: dictSet rest k v

/-- Python dict lookup (keys are unique). -/
def assocFind {K V : Type} [DecidableEq K] : List (K × V) → K → Option V
  | [], _ => none
  | (k', v) :: rest, k => if k' = k then some v else assocFind rest k

/-- `defaultdict(list)` append: add `v` at the end of the bucket of `k`,
creating the bucket (at the end of the key order) if missing. -/
def addReading {V : Type} : List (ℕ × List V) → ℕ → V → List (ℕ × List V)
  | [], k, v => [(k, [v])]
  | (k', l) :: rest, k, v =>
    if k' = k then (k', l ++ [v]) :: rest else (k', l) :: addReading rest k v

/-- All readings of all emitted cycles, in emission order
(the iteration order of spine_dashboard.py lines 192-195). -/
def readingsOf (M : MathLib α) (rows2 : List Row) : List (Reading α) :=
  ((groupCycles M rows2).map (fun c => c.2)).flatten

/-- `time_frames` (spine_dashboard.py lines 185-187): cycle start time mapped
to the `{sid: angle}` dict of that cycle; later cycles overwrite earlier ones
with the same start time. -/
def timeFramesOf (M : MathLib α) (rows2 : List Row) : List (ℤ × List (ℕ × α)) :=
  (groupCycles M rows2).foldl
    (fun acc c => dictSet acc c.1 (c.2.map (fun r => (r.1, r.2.2)))) []

/-- `sensor_data` (spine_dashboard.py lines 190-195): per-sensor list of
`(time_seconds, angle, ts_ms)` in reading order. -/
def sensorDataOf (M : MathLib α) (rows2 : List Row) : List (ℕ × List (α × α × ℤ)) :=
  (readingsOf M rows2).foldl
    (fun m r => addReading m r.1 (((r.2.1 : ℤ) : α) / 1000, r.2.2, r.2.1)) []

/-- `sorted(time_frames.keys())` (spine_dashboard.py line 201).  The keys are
distinct, so any correct sort produces the list Python's `sorted` produces. -/
def timestampsOf (M : MathLib α) (rows2 : List Row) : List ℤ :=
  List.insertionSort (fun a b => a ≤ b) ((timeFramesOf M rows2).map (fun p => p.1))

/-- `sorted(sensor_data.keys())` (spine_dashboard.py line 203). -/
def sensorOrderOf (M : MathLib α) (rows2 : List Row) : List ℕ :=
  List.insertionSort (fun a b => a ≤ b) ((sensorDataOf M rows2).map (fun p => p.1))

/-- Python's `l[::s]` for a positive step `s`: elements at indices 0, s, 2s, … -/
def everyNth {β : Type} (s : ℕ) (l : List β) : List β :=
  (l.enum.filter (fun p => p.1 % s = 0)).map (fun p => p.2)

/-- One sampled frame (spine_dashboard.py lines 215-219). -/
structure SpineFrame (α : Type) where
  time : α
  points : List (α × α)
  angles : List α
  deriving DecidableEq

/-- The loop body of spine_dashboard.py lines 208-219 for one sampled
timestamp: `None` when the guard `ts in time_frames` fails or all frame
angles are zero (no frame appended), otherwise the appended frame. -/
def frameFn [DecidableEq α] (M : MathLib α) (tf : List (ℤ × List (ℕ × α)))
    (sensor_order : List ℕ) (ts : ℤ) : Option (SpineFrame α) :=
  match assocFind tf ts with
  | none => none
  | some fr =>
    let frame_angles := sensor_order.map (fun sid => (assocFind fr sid).getD 0)
    if frame_angles.any (fun a => decide (a ≠ 0)) then
      some { time := ((ts : ℤ) : α) / 1000,
             points := build_spine_from_angles M frame_angles 9,
             angles := frame_angles }
    else none

/-- Frame sampler and per-frame curve construction (spine_dashboard.py lines
205-219): the conditional-append loop over the sampled timestamps is the
`filterMap` of its body.  `strideFn` is instantiated with
`fun n => max 1 (n / 500)`, the source's `max(1, len(timestamps)//500)`. -/
def spineCurvesOf [DecidableEq α] (M : MathLib α) (strideFn : ℕ → ℕ)
    (rows2 : List Row) : List (SpineFrame α) :=
  let timestamps := timestampsOf M rows2
  let sampled := everyNth (strideFn timestamps.length) timestamps
  sampled.filterMap (frameFn M (timeFramesOf M rows2) (sensorOrderOf M rows2))

/-- `max(l) - min(l) if l else 0`, the range-of-motion of a list of angles
(spine_dashboard.py lines 239, 242, 254-256). -/
def romOf (l : List α) : α :=
  match l with
  | [] => 0
  | a :: t => t.foldl max a - t.foldl min a

/-- `sum(l)/len(l) if l else 0`. -/
def avgOf (l : List α) : α :=
  match l with
  | [] => 0
  | a :: t => ((a :: t).sum) / (((a :: t).length : ℕ) : α)

/-- `all_angles` (spine_dashboard.py lines 233-238): the angles of every
sensor, concatenated in `sensor_data` key order. -/
def allAnglesOf (M : MathLib α) (rows2 : List Row) : List α :=
  ((sensorDataOf M rows2).map (fun p => p.2.map (fun d => d.2.1))).flatten

/-- The angles recorded for one sensor, in reading order. -/
def anglesOfSensor (M : MathLib α) (rows2 : List Row) (sid : ℕ) : List α :=
  (((assocFind (sensorDataOf M rows2) sid).getD []).map (fun d => d.2.1))

/-- `duration = (timestamps[-1] - timestamps[0]) / 1000.0`
(spine_dashboard.py line 241); the list is never empty when used. -/
def durationOf (M : MathLib α) (rows2 : List Row) : α :=
  (((timestampsOf M rows2).getLastD 0 - (timestampsOf M rows2).headD 0 : ℤ) : α) / 1000

/-- Pooled-section range of motion: the sensors of `sensor_order[lo:hi]`
contribute all their angles (spine_dashboard.py lines 244-256). -/
def sectionRomOf (M : MathLib α) (rows2 : List Row) (lo hi : ℕ) : α :=
  let so := sensorOrderOf M rows2
  romOf ((((so.drop lo).take (hi - lo)).map (fun sid => anglesOfSensor M rows2 sid)).flatten)

/-- The curvature scan of one frame's points (spine_dashboard.py lines
260-269): for every interior point, the distance to the chord between the
first and last point, accumulated with `max` into `acc`. -/
def curvatureFold (M : MathLib α) [DecidableEq α] (acc : α) (pts : List (α × α)) : α :=
  match pts with
  | p0 :: p1 :: rest =>
    let lastP := (p1 :: rest).getLastD p1
    let interior := ((p0 :: p1 :: rest).dropLast).drop 1
    interior.foldl (fun a pt =>
      let dist : α := if (p0 : α × α) ≠ lastP then
          |(lastP.2 - p0.2) * pt.1 - (lastP.1 - p0.1) * pt.2 +
            lastP.1 * p0.2 - lastP.2 * p0.1| /
            M.sqrt ((lastP.2 - p0.2) ^ 2 + (lastP.1 - p0.1) ^ 2)
        else 0
      max a dist) acc
  | _ => acc

/-- `max_curvature` (spine_dashboard.py lines 258-269), a fold of
`curvatureFold` over the sampled frames starting from 0. -/
def maxCurvatureOf [DecidableEq α] (M : MathLib α) (strideFn : ℕ → ℕ)
    (rows2 : List Row) : α :=
  (spineCurvesOf M strideFn rows2).foldl (fun acc c => curvatureFold M acc c.points) 0

/-- `avg_spine` (spine_dashboard.py lines 224-229): the curve built from each
sensor's average angle. -/
def avgSpineOf (M : MathLib α) (rows2 : List Row) : List (α × α) :=
  build_spine_from_angles M
    ((sensorOrderOf M rows2).map (fun sid => avgOf (anglesOfSensor M rows2 sid))) 9

/-- The analysis output record (spine_dashboard.py lines 273-289).  The
`filename` field and the string rendering of sensor ids are presentational
and kept as numbers here. -/
structure AnalysisResult (α : Type) where
  sensors : ℕ
  samples : ℕ
  duration : α
  total_rom : α
  upper_rom : α
  middle_rom : α
  lower_rom : α
  avg_angle : α
  movement_score : α
  max_curvature : α
  sensor_roms : List (ℕ × α)
  spine_curves : List (SpineFrame α)
  avg_spine : List (α × α)
  sensor_order : List ℕ
  deriving DecidableEq

/-- Assembly of the result record from non-empty trimmed rows
(spine_dashboard.py lines 144-289). -/
def buildResult [DecidableEq α] (M : MathLib α) (strideFn : ℕ → ℕ)
    (rows2 : List Row) : AnalysisResult α :=
  let n := (sensorOrderOf M rows2).length
  { sensors := (sensorDataOf M rows2).length
    samples := rows2.length
    duration := durationOf M rows2
    total_rom := romOf (allAnglesOf M rows2)
    upper_rom := sectionRomOf M rows2 0 (n / 3)
    middle_rom := sectionRomOf M rows2 (n / 3) (2 * n / 3)
    lower_rom := sectionRomOf M rows2 (2 * n / 3) n
    avg_angle := avgOf (allAnglesOf M rows2)
    movement_score := if 0 < durationOf M rows2 then
        romOf (allAnglesOf M rows2) / durationOf M rows2 else 0
    max_curvature := maxCurvatureOf M strideFn rows2
    sensor_roms := (sensorDataOf M rows2).map (fun p => (p.1, romOf (p.2.map (fun d => d.2.1))))
    spine_curves := spineCurvesOf M strideFn rows2
    avg_spine := avgSpineOf M rows2
    sensor_order := sensorOrderOf M rows2 }

/-- The analysis pipeline from parsed rows, generic in the sampling stride
(spine_dashboard.py lines 111-142 guards plus lines 144-289). -/
def analyzeGen [DecidableEq α] (M : MathLib α) (strideFn : ℕ → ℕ)
    (rows : List Row) : Option (AnalysisResult α) :=
  if rows = [] then none
  else
    let rows2 := trimRows rows
    if rows2 = [] then none
    else some (buildResult M strideFn rows2)

/-- The pipeline with the source's sampling stride `max(1, n // 500)`
(spine_dashboard.py line 206). -/
def analyze [DecidableEq α] (M : MathLib α) (rows : List Row) : Option (AnalysisResult α) :=
  analyzeGen M (fun n => max 1 (n / 500)) rows

/-- The whole operation from raw CSV records.  Each raw line is modelled by
its parse outcome: `some row` for a well-formed line, `none` for a line that
is missing a required column or fails integer conversion; the
`try/except: continue` of spine_dashboard.py lines 100-109 keeps exactly the
well-formed ones, in order. -/
def load_and_analyze_csv [DecidableEq α] (M : MathLib α) (raw : List (Option Row)) :
    Option (AnalysisResult α) :=
  analyze M (raw.filterMap id)

/-- The pipeline with no sampling (stride 1 over all cycle timestamps);
this is the spec's comparison point for the claim that sampling does not
change the session metrics. -/
def analyzeUnsampled [DecidableEq α] (M : MathLib α) (rows : List Row) :
    Option (AnalysisResult α) :=
  analyzeGen M (fun _ => 1) rows

/-- A trivial rational math library used to instantiate the parametric
pipeline on concrete inputs whose angles are forced by the gimbal-lock
override (which ignores the trigonometric primitives). -/
def qLib : MathLib ℚ := ⟨fun _ => 0, fun _ => 0, fun _ _ => 0, fun q => q⟩

/-- Python's two-argument arctangent `math.atan2`. -/
noncomputable def pyAtan2 (y x : ℝ) : ℝ :=
  if 0 < x then Real.arctan (y / x)
  else if x < 0 then
    (if 0 ≤ y then Real.arctan (y / x) + Real.pi else Real.arctan (y / x) - Real.pi)
  else if 0 < y then Real.pi / 2
  else if y < 0 then -(Real.pi / 2)
  else 0

/-- The exact-real instantiation of the math-library primitives. -/
noncomputable def realLib : MathLib ℝ where
  sinDeg := fun a => Real.sin (a * Real.pi / 180)
  cosDeg := fun a => Real.cos (a * Real.pi / 180)
  atanDeg := fun y x => pyAtan2 y x * 180 / Real.pi
  sqrt := Real.sqrt

/-- An 8-minute session: two rows 480000 ms apart. -/
def shortSessionRows : List Row := [(0, 0, 8192, 0, 0), (480000, 0, 8192, 0, 0)]

/-- Claim C1: the post-load trimming step on a session spanning 8 minutes.
The code's cutoff window `[first + 5min, last - 5min]` is empty for any span
below 10 minutes, so trimming removes every row and the analysis returns
no result, contrary to the claim (and to the code's own warning message,
which announces that no data is removed for such sessions). -/
theorem trim_short_session_drops_everything :
    trimRows shortSessionRows = [] ∧ analyze qLib shortSessionRows = none := by
  decide

/-- The five-sample instance of the cycle-reconstruction test. -/
def cycleDemoRows : List Row :=
  [(505, 0, 8192, 0, 0), (509, 2, 8192, 0, 0), (513, 5, 8192, 0, 0),
   (529, 7, 8192, 0, 0), (1105, 0, 8192, 0, 0)]

/-- Claim C2: on the sample stream (505,0),(509,2),(513,5),(529,7),(1105,0)
the reconstructor emits exactly two cycles, keyed at their start timestamps
505 and 1105, with sensors {0,2,5,7} and {0}; and in general the grouping
step opens a new cycle exactly when no cycle is open, the sensor id is
already present, or the timestamp exceeds the cycle start by more than
100 ms. -/
theorem cycle_reconstruction_demo (M : MathLib α) :
    ((groupCycles M cycleDemoRows).map (fun c => (c.1, c.2.map (fun r => r.1))) =
      [(505, [0, 2, 5, 7]), (1105, [0])]) ∧
    (∀ (openC : OpenCycle α) (ts : ℤ) (sid : ℕ),
      startsNewB openC ts sid = true ↔
        (openC = none ∨ ∃ t0 cur, openC = some (t0, cur) ∧
          (sid ∈ cur.map (fun r => r.1) ∨ 100 < ts - t0))) := by
  constructor
  · rfl
  · intro openC ts sid
    match openC with
    | none => simp [startsNewB]
    | some (t0, cur) =>
      simp only [startsNewB, Bool.or_eq_true, decide_eq_true_eq, Option.some.injEq,
        reduceCtorEq, false_or]
      constructor
      · intro h
        exact ⟨t0, cur, rfl, h⟩
      · rintro ⟨t0h, curh, heq, h⟩
        obtain ⟨rfl, rfl⟩ := Prod.mk.injEq .. ▸ heq
        exact h

/-- Claim C5 (amended): with both accelerometer components inside the integer
deadzone `int(0.03 * 8192) = 245` and `|x|` strictly above
`int(0.98 * 8192) = 8028`, the estimator returns exactly 0 for positive x and
exactly 180 for negative x, whatever the trigonometric primitives return. -/
theorem gimbal_lock_snap (M : MathLib α) (x y z : ℤ)
    (hy : |y| < 245) (hz : |z| < 245) (hx : 8028 < |x|) :
    compute_angle_from_accel M x y z = if x < 0 then (180 : α) else 0 := by
  have hx0 : x ≠ 0 := by
    intro h; rw [h] at hx; simp at hx
  unfold compute_angle_from_accel
  simp only [if_pos hx0, if_pos hy, if_pos hz, abs_zero]
  rw [if_pos ⟨hx, by norm_num, by norm_num⟩]

/-- Witness for the gimbal-lock theorem at x = 8192, y = z = 0. -/
theorem gimbal_lock_snap_witness :
    (|(0 : ℤ)| < 245 ∧ (8028 : ℤ) < |(8192 : ℤ)|) ∧
      compute_angle_from_accel qLib 8192 0 0 = 0 := by
  refine ⟨by decide, ?_⟩
  have h := gimbal_lock_snap qLib 8192 0 0 (by decide) (by decide) (by decide)
  rw [if_neg (by decide)] at h
  exact h

/-- Claim C5 is too generous at the deadzone boundary: the input
(x, y, z) = (8200, 245, 0) satisfies the claim's hypotheses
(|y|, |z| below 0.03 * 8192 = 245.76 and |x| at least 0.98 * 8192), x is
positive, yet the estimator does not return 0: the integer deadzone is
int(0.03 * 8192) = 245 and the test is strict, so y = 245 survives it and
the gimbal-lock override is not taken. -/
theorem gimbal_lock_snap_cex :
    ((245 : ℝ) < 0.03 * 8192 ∧ (0 : ℝ) < 0.03 * 8192 ∧ (0.98 * 8192 : ℝ) ≤ 8200) ∧
      compute_angle_from_accel realLib 8200 245 0 ≠ 0 := by
  refine ⟨⟨by norm_num, by norm_num, by norm_num⟩, ?_⟩
  unfold compute_angle_from_accel
  norm_num [realLib, pyAtan2]
  exact Real.pi_ne_zero

/-- A cycle satisfying the (amended) reconstruction invariants: no repeated
sensor id, and every member timestamp at most 100 ms after the start. -/
def goodCycle (c : ℤ × List (Reading α)) : Prop :=
  (c.2.map (fun r => r.1)).Nodup ∧ ∀ r ∈ c.2, r.2.1 - c.1 ≤ 100

/-- The open cycle, when present, also satisfies the invariants. -/
def openGood : OpenCycle α → Prop
  | none => True
  | some (t0, cur) => goodCycle (t0, cur)

lemma flushOpen_good {cycles : List (ℤ × List (Reading α))} {openC : OpenCycle α}
    (h1 : ∀ c ∈ cycles, goodCycle c) (h2 : openGood openC) :
    ∀ c ∈ flushOpen cycles openC, goodCycle c := by
  match openC with
  | none => exact h1
  | some (t0, cur) =>
    intro c hc
    rcases List.mem_append.mp hc with h | h
    · exact h1 c h
    · rcases List.mem_singleton.mp h with rfl
      exact h2

lemma cycleStep_good (M : MathLib α) (st : List (ℤ × List (Reading α)) × OpenCycle α)
    (row : Row) (h1 : ∀ c ∈ st.1, goodCycle c) (h2 : openGood st.2) :
    (∀ c ∈ (cycleStep M st row).1, goodCycle c) ∧ openGood (cycleStep M st row).2 := by
  obtain ⟨cycles, openC⟩ := st
  obtain ⟨ts, sid, ax, ay, az⟩ := row
  by_cases hnew : startsNewB openC ts sid = true
  · rw [show cycleStep M (cycles, openC) (ts, sid, ax, ay, az) =
        (flushOpen cycles openC,
          some (ts, [(sid, ts, compute_angle_from_accel M ax ay az)]))
        from by simp [cycleStep, hnew]]
    refine ⟨flushOpen_good h1 h2, ?_, ?_⟩
    · simp
    · intro r hr
      rcases List.mem_singleton.mp hr with rfl
      simp
  · cases openC with
    | none => simp [startsNewB] at hnew
    | some p =>
      obtain ⟨t0, cur⟩ := p
      rw [show cycleStep M (cycles, some (t0, cur)) (ts, sid, ax, ay, az) =
          (cycles, some (t0, cur ++ [(sid, ts, compute_angle_from_accel M ax ay az)]))
          from by simp [cycleStep, hnew]]
      obtain ⟨hnd, hmem⟩ := h2
      simp only [startsNewB, Bool.or_eq_true, decide_eq_true_eq, not_or] at hnew
      refine ⟨h1, ?_, ?_⟩
      · simp only [List.map_append, List.map_cons, List.map_nil]
        exact List.Nodup.append hnd (List.nodup_singleton sid)
          (by simpa [List.disjoint_singleton] using hnew.1)
      · intro r hr
        rcases List.mem_append.mp hr with h | h
        · exact hmem r h
        · rcases List.mem_singleton.mp h with rfl
          simp only
          omega

/-- Claim C7 (amended): every emitted cycle has pairwise-distinct sensor ids,
and every member's timestamp is at most 100 ms after the cycle start (the
signed bound; with non-monotone inputs a member may precede the start by an
arbitrary amount, see the counterexample). -/
theorem cycle_member_invariants (M : MathLib α) (rows : List Row) :
    ∀ c ∈ groupCycles M rows,
      (c.2.map (fun r => r.1)).Nodup ∧ ∀ r ∈ c.2, r.2.1 - c.1 ≤ 100 := by
  suffices h : ∀ (l : List Row) (st : List (ℤ × List (Reading α)) × OpenCycle α),
      (∀ c ∈ st.1, goodCycle c) → openGood st.2 →
      ∀ c ∈ (let st' := l.foldl (cycleStep M) st; flushOpen st'.1 st'.2), goodCycle c by
    exact h rows ([], none) (by simp) trivial
  intro l
  induction l with
  | nil =>
    intro st h1 h2
    exact flushOpen_good h1 h2
  | cons row rest ih =>
    intro st h1 h2
    have := cycleStep_good M st row h1 h2
    exact ih (cycleStep M st row) this.1 this.2

/-- Two rows with decreasing timestamps. -/
def backwardsRows : List Row := [(1000, 0, 8192, 0, 0), (0, 1, 8192, 0, 0)]

/-- Claim C7, as stated, is false: with non-monotone timestamps a reading can
join a cycle whose start lies far in its future, violating the absolute
100 ms window.  Here the reading of sensor 1 at t = 0 joins the cycle that
started at t = 1000. -/
theorem cycle_member_invariants_cex :
    ¬ (∀ c ∈ groupCycles qLib backwardsRows, ∀ r ∈ c.2, |r.2.1 - c.1| ≤ 100) := by
  decide

/-- Witness applying the invariant theorem to a concrete emitted cycle. -/
theorem cycle_member_invariants_witness :
    ((((505 : ℤ), [((0 : ℕ), (505 : ℤ), (0 : ℚ)), (2, 509, 0)]).2.map (fun r => r.1)).Nodup ∧
      ∀ r ∈ ((505 : ℤ), [((0 : ℕ), (505 : ℤ), (0 : ℚ)), ((2 : ℕ), (509 : ℤ), (0 : ℚ))]).2,
        r.2.1 - ((505 : ℤ), [((0 : ℕ), (505 : ℤ), (0 : ℚ)), (2, 509, 0)]).1 ≤ 100) := by
  exact cycle_member_invariants qLib
    [(505, 0, 8192, 0, 0), (509, 2, 8192, 0, 0)]
    ((505 : ℤ), [((0 : ℕ), (505 : ℤ), (0 : ℚ)), (2, 509, 0)]) (by decide)

/-- Claim C8: the pipeline returns no result exactly when no rows survive
parsing or none survive trimming; malformed raw records (the `none`
entries) are silently dropped, and well-formed input otherwise always
produces a (total) result. -/
theorem analysis_none_iff (M : MathLib α) [DecidableEq α] (raw : List (Option Row)) :
    load_and_analyze_csv M raw = none ↔
      (raw.filterMap id = [] ∨ trimRows (raw.filterMap id) = []) := by
  unfold load_and_analyze_csv analyze analyzeGen
  by_cases h1 : raw.filterMap id = [] <;> by_cases h2 : trimRows (raw.filterMap id) = [] <;>
    simp [h1, h2]

lemma sum_map_sub_const (xs : List α) (c : α) :
    (xs.map (fun x => x - c)).sum = xs.sum - (xs.length : α) * c := by
  induction xs with
  | nil => simp
  | cons a t ih =>
    simp only [List.map_cons, List.sum_cons, ih, List.length_cons]
    push_cast
    ring

lemma sum_centered (xs : List α) (h : xs ≠ []) :
    (xs.map (fun x => x - xs.sum / (xs.length : α))).sum = 0 := by
  rw [sum_map_sub_const]
  have hn : ((xs.length : ℕ) : α) ≠ 0 := by
    have hl : xs.length ≠ 0 := fun h0 => h (List.length_eq_zero.mp h0)
    exact Nat.cast_ne_zero.mpr hl
  field_simp

lemma centerScale_sum_fst (locs : List (α × α)) (h : locs ≠ []) :
    ((centerScale locs).map (fun p => p.1)).sum = 0 := by
  unfold centerScale
  simp only [List.map_map]
  have : ((fun p : α × α => p.1) ∘ (fun p : α × α => (p.1 * 100, p.2 * 100)) ∘
      (fun p : α × α => (p.1 - (locs.map (fun q => q.1)).sum / (locs.length : α),
        p.2 - (locs.map (fun q => q.2)).sum / (locs.length : α)))) =
      (fun p : α × α =>
        (p.1 - (locs.map (fun q => q.1)).sum / (locs.length : α)) * 100) := rfl
  rw [this]
  have hx : (locs.map (fun p : α × α =>
      (p.1 - (locs.map (fun q => q.1)).sum / (locs.length : α)) * 100)).sum =
      ((locs.map (fun q => q.1)).map (fun x =>
        x - (locs.map (fun q => q.1)).sum / ((locs.map (fun q => q.1)).length : α))).sum
        * 100 := by
    rw [List.map_map]
    rw [← List.sum_map_mul_right]
    simp [Function.comp]
  rw [hx, sum_centered _ (by simpa using h), zero_mul]

lemma centerScale_sum_snd (locs : List (α × α)) (h : locs ≠ []) :
    ((centerScale locs).map (fun p => p.2)).sum = 0 := by
  unfold centerScale
  simp only [List.map_map]
  have : ((fun p : α × α => p.2) ∘ (fun p : α × α => (p.1 * 100, p.2 * 100)) ∘
      (fun p : α × α => (p.1 - (locs.map (fun q => q.1)).sum / (locs.length : α),
        p.2 - (locs.map (fun q => q.2)).sum / (locs.length : α)))) =
      (fun p : α × α =>
        (p.2 - (locs.map (fun q => q.2)).sum / (locs.length : α)) * 100) := rfl
  rw [this]
  have hx : (locs.map (fun p : α × α =>
      (p.2 - (locs.map (fun q => q.2)).sum / (locs.length : α)) * 100)).sum =
      ((locs.map (fun q => q.2)).map (fun x =>
        x - (locs.map (fun q => q.2)).sum / ((locs.map (fun q => q.2)).length : α))).sum
        * 100 := by
    rw [List.map_map]
    rw [← List.sum_map_mul_right]
    simp [Function.comp]
  rw [hx, sum_centered _ (by simpa using h), zero_mul]

lemma spineLocs_length (M : MathLib α) (angles : List α) (s : α) :
    (spineLocs M angles s).length = angles.length := by
  unfold spineLocs
  have gen : ∀ (l : List α) (st : (α × α) × List (α × α)),
      ((l.foldl (fun st a =>
        let dx := (s / 100) * M.sinDeg a
        let dy := (s / 100) * M.cosDeg a
        let c := (st.1.1 + dx, st.1.2 + dy)
        (c, st.2 ++ [c])) st).2).length = st.2.length + l.length := by
    intro l
    induction l with
    | nil => intro st; simp
    | cons a t ih =>
      intro st
      simp only [List.foldl_cons, ih, List.length_append, List.length_cons]
      simp
      omega
  simp [gen]

/-- Claim C9: for every non-empty angle list the built polyline is centered:
the mean of the x coordinates and the mean of the y coordinates of the output
(after the centimeter scaling) are both exactly zero. -/
theorem curve_centroid_zero (M : MathLib α) (angles : List α) (h : angles ≠ []) :
    (((build_spine_from_angles M angles 9).map (fun p => p.1)).sum /
        ((build_spine_from_angles M angles 9).length : α) = 0) ∧
    (((build_spine_from_angles M angles 9).map (fun p => p.2)).sum /
        ((build_spine_from_angles M angles 9).length : α) = 0) := by
  obtain ⟨a, as, rfl⟩ := List.exists_cons_of_ne_nil h
  have hne : spineLocs M (a :: as) 9 ≠ [] := by
    intro h0
    have := spineLocs_length M (a :: as) (9 : α)
    rw [h0] at this
    simp at this
  have hb : build_spine_from_angles M (a :: as) (9 : α) =
      centerScale (spineLocs M (a :: as) 9) := rfl
  rw [hb, centerScale_sum_fst _ hne, centerScale_sum_snd _ hne]
  simp

/-- Witness for the centering theorem on the one-element angle list [1]. -/
theorem curve_centroid_zero_witness :
    (([ (1 : ℚ) ] : List ℚ) ≠ []) ∧
    (((build_spine_from_angles qLib [(1 : ℚ)] 9).map (fun p => p.1)).sum /
        ((build_spine_from_angles qLib [(1 : ℚ)] 9).length : ℚ) = 0) := by
  exact ⟨by decide, (curve_centroid_zero qLib [(1 : ℚ)] (by decide)).1⟩

/-- The session metrics other than `max_curvature`:
(total_rom, upper_rom, middle_rom, lower_rom, sensor_roms, avg_angle,
movement_score, duration). -/
def metricsSansCurvature (r : AnalysisResult α) :
    α × α × α × α × List (ℕ × α) × α × α × α :=
  (r.total_rom, r.upper_rom, r.middle_rom, r.lower_rom, r.sensor_roms,
    r.avg_angle, r.movement_score, r.duration)

/-- Claim C4 (amended): the frame-sampling stride has no effect on any
session metric except `max_curvature`: total/section/per-sensor range of
motion, average angle, movement score and duration computed with the cap-500
stride equal the values computed with stride 1, for every input.
`max_curvature` is excluded: the source computes it over the sampled
frames, so it can change (see the counterexample). -/
theorem sampling_preserves_other_metrics [DecidableEq α] (M : MathLib α) (rows : List Row) :
    (analyzeUnsampled M rows).map metricsSansCurvature =
      (analyze M rows).map metricsSansCurvature := by
  unfold analyze analyzeUnsampled analyzeGen
  by_cases h1 : rows = [] <;> by_cases h2 : trimRows rows = [] <;>
    simp [h1, h2, buildResult, metricsSansCurvature]

/-- The reading a row contributes to its cycle. -/
def toReading (M : MathLib α) (row : Row) : Reading α :=
  (row.2.1, row.1, compute_angle_from_accel M row.2.2.1 row.2.2.2.1 row.2.2.2.2)

/-- The readings of the still-open cycle, if any. -/
def openPart : OpenCycle α → List (Reading α)
  | none => []
  | some p => p.2

lemma flushOpen_flatten (cycles : List (ℤ × List (Reading α))) (openC : OpenCycle α) :
    ((flushOpen cycles openC).map (fun c => c.2)).flatten =
      (cycles.map (fun c => c.2)).flatten ++ openPart openC := by
  cases openC with
  | none => simp [flushOpen, openPart]
  | some p => simp [flushOpen, openPart]

lemma cycleStep_reading_eq (M : MathLib α)
    (st : List (ℤ × List (Reading α)) × OpenCycle α) (row : Row) :
    ((cycleStep M st row).1.map (fun c => c.2)).flatten ++ openPart (cycleStep M st row).2 =
      ((st.1.map (fun c => c.2)).flatten ++ openPart st.2) ++ [toReading M row] := by
  obtain ⟨cycles, openC⟩ := st
  obtain ⟨ts, sid, ax, ay, az⟩ := row
  by_cases hnew : startsNewB openC ts sid = true
  · simp [cycleStep, hnew, flushOpen_flatten, openPart, toReading]
  · cases openC with
    | none => simp [cycleStep, hnew, openPart, toReading]
    | some p =>
      obtain ⟨t0, cur⟩ := p
      simp [cycleStep, hnew, openPart, toReading]

lemma foldl_cycleStep_reading_eq (M : MathLib α) (l : List Row) :
    ∀ st : List (ℤ × List (Reading α)) × OpenCycle α,
      ((l.foldl (cycleStep M) st).1.map (fun c => c.2)).flatten ++
          openPart (l.foldl (cycleStep M) st).2 =
        ((st.1.map (fun c => c.2)).flatten ++ openPart st.2) ++ l.map (toReading M) := by
  induction l with
  | nil => intro st; simp
  | cons row rest ih =>
    intro st
    simp only [List.foldl_cons, List.map_cons]
    rw [ih (cycleStep M st row), cycleStep_reading_eq]
    simp

/-- Conservation: the emitted cycles carry exactly one reading per row,
in row order. -/
lemma readingsOf_eq_map (M : MathLib α) (rows : List Row) :
    readingsOf M rows = rows.map (toReading M) := by
  unfold readingsOf groupCycles
  rw [flushOpen_flatten]
  simpa using foldl_cycleStep_reading_eq M rows ([], none)

section FoldMaxMin

variable {o : Type} [LinearOrder o]

lemma le_foldl_max_init (t : List o) (a : o) : a ≤ t.foldl max a := by
  induction t generalizing a with
  | nil => exact le_refl a
  | cons c t ih => exact le_trans (le_max_left a c) (ih (max a c))

lemma le_foldl_max_mem (t : List o) (a x : o) (hx : x ∈ a :: t) : x ≤ t.foldl max a := by
  induction t generalizing a with
  | nil =>
    rcases List.mem_singleton.mp hx with rfl
    exact le_refl x
  | cons c t ih =>
    rcases List.mem_cons.mp hx with rfl | hx'
    · exact le_trans (le_max_left x c) (le_foldl_max_init t (max x c))
    · rcases List.mem_cons.mp hx' with rfl | hx''
      · exact le_trans (le_max_right a x) (le_foldl_max_init t (max a x))
      · exact ih (max a c) (List.mem_cons_of_mem _ hx'')

lemma foldl_max_le (t : List o) (a b : o) (ha : a ≤ b) (ht : ∀ x ∈ t, x ≤ b) :
    t.foldl max a ≤ b := by
  induction t generalizing a with
  | nil => exact ha
  | cons c t ih =>
    exact ih (max a c) (max_le ha (ht c (List.mem_cons_self _ _)))
      (fun x hx => ht x (List.mem_cons_of_mem _ hx))

lemma foldl_max_perm {a b : o} {t s : List o} (h : (a :: t).Perm (b :: s)) :
    t.foldl max a = s.foldl max b := by
  apply le_antisymm
  · exact foldl_max_le t a _ (le_foldl_max_mem s b a (h.mem_iff.mp (List.mem_cons_self _ _)))
      (fun x hx => le_foldl_max_mem s b x (h.mem_iff.mp (List.mem_cons_of_mem _ hx)))
  · exact foldl_max_le s b _ (le_foldl_max_mem t a b (h.symm.mem_iff.mp (List.mem_cons_self _ _)))
      (fun x hx => le_foldl_max_mem t a x (h.symm.mem_iff.mp (List.mem_cons_of_mem _ hx)))

lemma foldl_min_init_le (t : List o) (a : o) : t.foldl min a ≤ a := by
  induction t generalizing a with
  | nil => exact le_refl a
  | cons c t ih => exact le_trans (ih (min a c)) (min_le_left a c)

lemma foldl_min_le_mem (t : List o) (a x : o) (hx : x ∈ a :: t) : t.foldl min a ≤ x := by
  induction t generalizing a with
  | nil =>
    rcases List.mem_singleton.mp hx with rfl
    exact le_refl x
  | cons c t ih =>
    rcases List.mem_cons.mp hx with rfl | hx'
    · exact le_trans (foldl_min_init_le t (min x c)) (min_le_left x c)
    · rcases List.mem_cons.mp hx' with rfl | hx''
      · exact le_trans (foldl_min_init_le t (min a x)) (min_le_right a x)
      · exact ih (min a c) (List.mem_cons_of_mem _ hx'')

lemma le_foldl_min (t : List o) (a b : o) (ha : b ≤ a) (ht : ∀ x ∈ t, b ≤ x) :
    b ≤ t.foldl min a := by
  induction t generalizing a with
  | nil => exact ha
  | cons c t ih =>
    exact ih (min a c) (le_min ha (ht c (List.mem_cons_self _ _)))
      (fun x hx => ht x (List.mem_cons_of_mem _ hx))

lemma foldl_min_perm {a b : o} {t s : List o} (h : (a :: t).Perm (b :: s)) :
    t.foldl min a = s.foldl min b := by
  apply le_antisymm
  · exact le_foldl_min s b _ (foldl_min_le_mem t a b (h.symm.mem_iff.mp (List.mem_cons_self _ _)))
      (fun x hx => foldl_min_le_mem t a x (h.symm.mem_iff.mp (List.mem_cons_of_mem _ hx)))
  · exact le_foldl_min t a _ (foldl_min_le_mem s b a (h.mem_iff.mp (List.mem_cons_self _ _)))
      (fun x hx => foldl_min_le_mem s b x (h.mem_iff.mp (List.mem_cons_of_mem _ hx)))

lemma romOf_perm {l l' : List α} (h : l.Perm l') : romOf l = romOf l' := by
  cases l with
  | nil =>
    rw [List.Perm.nil_eq h]
  | cons a t =>
    cases l' with
    | nil => exact absurd h.eq_nil (by simp)
    | cons b s =>
      show t.foldl max a - t.foldl min a = s.foldl max b - s.foldl min b
      rw [foldl_max_perm h, foldl_min_perm h]

end FoldMaxMin

/-- All bucket values of a `defaultdict(list)`, concatenated in key order. -/
def bucketFlat {V : Type} (m : List (ℕ × List V)) : List V :=
  (m.map (fun p => p.2)).flatten

lemma bucketFlat_addReading {V : Type} (m : List (ℕ × List V)) (k : ℕ) (v : V) :
    (bucketFlat (addReading m k v)).Perm (bucketFlat m ++ [v]) := by
  induction m with
  | nil => simp [bucketFlat, addReading]
  | cons p rest ih =>
    obtain ⟨k', l⟩ := p
    show (bucketFlat (if k' = k then (k', l ++ [v]) :: rest
        else (k', l) :: addReading rest k v)).Perm _
    by_cases hk : k' = k
    · rw [if_pos hk]
      show ((l ++ [v]) ++ bucketFlat rest).Perm ((l ++ bucketFlat rest) ++ [v])
      rw [List.append_assoc, List.append_assoc]
      exact List.Perm.append_left l List.perm_append_comm
    · rw [if_neg hk]
      show (l ++ bucketFlat (addReading rest k v)).Perm ((l ++ bucketFlat rest) ++ [v])
      rw [List.append_assoc]
      exact List.Perm.append_left l ih

lemma bucketFlat_foldl {β V : Type} (key : β → ℕ) (val : β → V) (R : List β) :
    ∀ acc : List (ℕ × List V),
      (bucketFlat (R.foldl (fun m r => addReading m (key r) (val r)) acc)).Perm
        (bucketFlat acc ++ R.map val) := by
  induction R with
  | nil => intro acc; simp
  | cons r R ih =>
    intro acc
    simp only [List.foldl_cons, List.map_cons]
    refine (ih (addReading acc (key r) (val r))).trans ?_
    refine (List.Perm.append_right (R.map val) (bucketFlat_addReading acc (key r) (val r))).trans ?_
    rw [List.append_assoc]
    exact List.Perm.append_left _ (by simp)

/-- The multiset of angles the metrics aggregator pools from `sensor_data`
is a permutation of the readings' angles in cycle order. -/
lemma allAngles_perm (M : MathLib α) (rows2 : List Row) :
    (allAnglesOf M rows2).Perm
      (((groupCycles M rows2).map (fun c => c.2.map (fun r => r.2.2))).flatten) := by
  have h1 : allAnglesOf M rows2 = (bucketFlat (sensorDataOf M rows2)).map (fun d => d.2.1) := by
    unfold allAnglesOf bucketFlat
    rw [List.map_flatten, List.map_map]
    rfl
  have h2 : ((groupCycles M rows2).map (fun c => c.2.map (fun r => r.2.2))).flatten =
      (readingsOf M rows2).map (fun r => r.2.2) := by
    unfold readingsOf
    rw [List.map_flatten, List.map_map]
    rfl
  rw [h1, h2]
  have h3 := bucketFlat_foldl (fun r : Reading α => r.1)
    (fun r : Reading α => (((r.2.1 : ℤ) : α) / 1000, r.2.2, r.2.1)) (readingsOf M rows2) []
  have h4 := List.Perm.map (fun d : α × α × ℤ => d.2.1) h3
  refine h4.trans ?_
  simp only [bucketFlat, List.map_nil, List.flatten_nil, List.nil_append, List.map_map]
  have hc : ((fun d : α × α × ℤ => d.2.1) ∘
      (fun r : Reading α => (((r.2.1 : ℤ) : α) / 1000, r.2.2, r.2.1))) =
      (fun r : Reading α => r.2.2) := rfl
  rw [hc]

/-- The spec's direct recomputation of the pooled angle multiset: every
computed angle of every sensor in every reading cycle, in cycle order. -/
def directAllAnglesOf (M : MathLib α) (rows : List Row) : List α :=
  ((groupCycles M (trimRows rows)).map (fun c => c.2.map (fun r => r.2.2))).flatten

/-- The spec's direct recomputation of the total range of motion:
`max - min` over the direct angle multiset, and 0 when it is empty. -/
def directTotalRomOf (M : MathLib α) (rows : List Row) : α :=
  romOf (directAllAnglesOf M rows)

/-- Claim C6: whenever the analysis returns a result, its `total_rom` equals
exactly the direct recomputation `max - min` over the multiset of all
computed angles across every sensor and every reading cycle (which is 0 on
an empty multiset, by definition of `romOf`). -/
theorem total_rom_is_direct [DecidableEq α] (M : MathLib α) (rows : List Row)
    (r : AnalysisResult α) (h : analyze M rows = some r) :
    r.total_rom = directTotalRomOf M rows := by
  unfold analyze analyzeGen at h
  by_cases h1 : rows = []
  · rw [if_pos h1] at h
    exact absurd h (by simp)
  · rw [if_neg h1] at h
    simp only at h
    by_cases h2 : trimRows rows = []
    · rw [if_pos h2] at h
      exact absurd h (by simp)
    · rw [if_neg h2] at h
      have hr : r = buildResult M (fun n => max 1 (n / 500)) (trimRows rows) :=
        (Option.some.injEq .. ▸ h).symm
      subst hr
      show romOf (allAnglesOf M (trimRows rows)) = directTotalRomOf M rows
      exact romOf_perm (allAngles_perm M (trimRows rows))

lemma addReading_keys {V : Type} (m : List (ℕ × List V)) (k : ℕ) (v : V) :
    (addReading m k v).map (fun p => p.1) =
      if k ∈ m.map (fun p => p.1) then m.map (fun p => p.1)
      else m.map (fun p => p.1) ++ [k] := by
  induction m with
  | nil => simp [addReading]
  | cons p rest ih =>
    obtain ⟨k', l⟩ := p
    show (if k' = k then (k', l ++ [v]) :: rest
        else (k', l) :: addReading rest k v).map (fun p => p.1) = _
    by_cases hk : k' = k
    · rw [if_pos hk]
      subst hk
      simp
    · rw [if_neg hk]
      simp only [List.map_cons, ih, List.mem_cons]
      by_cases hm : k ∈ rest.map (fun p => p.1)
      · rw [if_pos hm, if_pos (Or.inr hm)]
      · rw [if_neg hm, if_neg (by
          intro h
          rcases h with h | h
          · exact hk h.symm
          · exact hm h)]
        simp

lemma foldl_addReading_keys {β V : Type} (key : β → ℕ) (val : β → V) (R : List β) :
    ∀ acc : List (ℕ × List V),
      ((acc.map (fun p => p.1)).Nodup →
        (((R.foldl (fun m r => addReading m (key r) (val r)) acc).map (fun p => p.1)).Nodup)) ∧
      (∀ k, k ∈ (R.foldl (fun m r => addReading m (key r) (val r)) acc).map (fun p => p.1) ↔
        (k ∈ acc.map (fun p => p.1) ∨ k ∈ R.map key)) := by
  induction R with
  | nil => intro acc; simp
  | cons r R ih =>
    intro acc
    simp only [List.foldl_cons, List.map_cons, List.mem_cons]
    constructor
    · intro hnd
      apply (ih (addReading acc (key r) (val r))).1
      rw [addReading_keys]
      by_cases hm : key r ∈ acc.map (fun p => p.1)
      · rwa [if_pos hm]
      · rw [if_neg hm]
        exact List.Nodup.append hnd (List.nodup_singleton _)
          (by simpa [List.disjoint_singleton] using hm)
    · intro k
      rw [(ih (addReading acc (key r) (val r))).2 k, addReading_keys]
      by_cases hm : key r ∈ acc.map (fun p => p.1)
      · rw [if_pos hm]
        constructor
        · rintro (h | h)
          · exact Or.inl h
          · exact Or.inr (Or.inr h)
        · rintro (h | h | h)
          · exact Or.inl h
          · exact Or.inl (h ▸ hm)
          · exact Or.inr h
      · rw [if_neg hm]
        simp only [List.mem_append, List.mem_singleton]
        constructor
        · rintro ((h | h) | h)
          · exact Or.inl h
          · exact Or.inr (Or.inl h)
          · exact Or.inr (Or.inr h)
        · rintro (h | h | h)
          · exact Or.inl (Or.inl h)
          · exact Or.inl (Or.inr h)
          · exact Or.inr h

lemma nodup_same_mem_length {l1 l2 : List ℕ} (h1 : l1.Nodup) (h2 : l2.Nodup)
    (hm : ∀ x, x ∈ l1 ↔ x ∈ l2) : l1.length = l2.length := by
  rw [← List.toFinset_card_of_nodup h1, ← List.toFinset_card_of_nodup h2]
  congr 1
  ext x
  simp [hm x]

/-- Claim C10: cycle reconstruction conserves readings (the total number of
readings over all emitted cycles equals the trimmed row count), and the
reported sensor count equals the number of distinct sensor ids among the
retained rows. -/
theorem cycles_conserve_readings [DecidableEq α] (M : MathLib α) (rows : List Row)
    (r : AnalysisResult α) (h : analyze M rows = some r) :
    (((groupCycles M (trimRows rows)).map (fun c => c.2.length)).sum =
      (trimRows rows).length) ∧
    r.sensors = (((trimRows rows).map (fun t => t.2.1)).dedup).length := by
  constructor
  · have h1 := readingsOf_eq_map M (trimRows rows)
    have h2 : (readingsOf M (trimRows rows)).length = (trimRows rows).length := by
      rw [h1, List.length_map]
    unfold readingsOf at h2
    rw [List.length_flatten, List.map_map] at h2
    simpa using h2
  · unfold analyze analyzeGen at h
    by_cases hr1 : rows = []
    · rw [if_pos hr1] at h
      exact absurd h (by simp)
    · rw [if_neg hr1] at h
      simp only at h
      by_cases hr2 : trimRows rows = []
      · rw [if_pos hr2] at h
        exact absurd h (by simp)
      · rw [if_neg hr2] at h
        have hr : r = buildResult M (fun n => max 1 (n / 500)) (trimRows rows) :=
          (Option.some.injEq .. ▸ h).symm
        subst hr
        show (sensorDataOf M (trimRows rows)).length = _
        have hkeys := foldl_addReading_keys (fun r : Reading α => r.1)
          (fun r : Reading α => (((r.2.1 : ℤ) : α) / 1000, r.2.2, r.2.1))
          (readingsOf M (trimRows rows))
        have hnd : ((sensorDataOf M (trimRows rows)).map (fun p => p.1)).Nodup :=
          (hkeys []).1 (by simp)
        have hmem : ∀ k, k ∈ (sensorDataOf M (trimRows rows)).map (fun p => p.1) ↔
            k ∈ (trimRows rows).map (fun t => t.2.1) := by
          intro k
          rw [show sensorDataOf M (trimRows rows) =
            (readingsOf M (trimRows rows)).foldl
              (fun m r => addReading m r.1 (((r.2.1 : ℤ) : α) / 1000, r.2.2, r.2.1)) []
            from rfl]
          rw [(hkeys []).2 k]
          simp only [List.map_nil, List.not_mem_nil, false_or]
          rw [readingsOf_eq_map, List.map_map]
          rfl
        have hlen : (sensorDataOf M (trimRows rows)).length =
            ((sensorDataOf M (trimRows rows)).map (fun p => p.1)).length := by
          rw [List.length_map]
        rw [hlen]
        exact nodup_same_mem_length hnd (List.nodup_dedup _)
          (fun x => by rw [hmem x, List.mem_dedup])

/-- A default result record, used only to name the value inside a `some`. -/
def emptyResult : AnalysisResult ℚ :=
  ⟨0, 0, 0, 0, 0, 0, 0, 0, 0, 0, [], [], [], []⟩

/-- A 20-minute session whose retained rows form one two-sensor cycle. -/
def romDemoRows : List Row :=
  [(0, 0, 8192, 0, 0), (300000, 5, 0, 8192, 0), (300050, 3, 8192, 0, 0),
   (1200000, 0, 8192, 0, 0)]

unseal Rat.mul Rat.inv Rat.add Rat.sub in
/-- Witness for the total-ROM recomputation theorem on `romDemoRows`. -/
theorem total_rom_is_direct_witness :
    (analyze qLib romDemoRows = some ((analyze qLib romDemoRows).getD emptyResult)) ∧
    ((analyze qLib romDemoRows).getD emptyResult).total_rom =
      directTotalRomOf qLib romDemoRows := by
  have h : analyze qLib romDemoRows = some ((analyze qLib romDemoRows).getD emptyResult) := by
    decide
  exact ⟨h, total_rom_is_direct qLib romDemoRows _ h⟩

/-- A 20-minute session whose retained rows are two distinct sensors. -/
def conserveDemoRows : List Row :=
  [(0, 0, 8192, 0, 0), (300000, 4, 8192, 0, 0), (300020, 6, 8192, 0, 0),
   (1200000, 0, 8192, 0, 0)]

unseal Rat.mul Rat.inv Rat.add Rat.sub in
/-- Witness for the conservation theorem on `conserveDemoRows`. -/
theorem cycles_conserve_readings_witness :
    (analyze qLib conserveDemoRows =
      some ((analyze qLib conserveDemoRows).getD emptyResult)) ∧
    (((groupCycles qLib (trimRows conserveDemoRows)).map (fun c => c.2.length)).sum =
      (trimRows conserveDemoRows).length) ∧
    ((analyze qLib conserveDemoRows).getD emptyResult).sensors =
      (((trimRows conserveDemoRows).map (fun t => t.2.1)).dedup).length := by
  have h : analyze qLib conserveDemoRows =
      some ((analyze qLib conserveDemoRows).getD emptyResult) := by
    decide
  exact ⟨h, cycles_conserve_readings qLib conserveDemoRows _ h⟩

section SymbolicEvaluation

lemma foldl_min_eq_init (t : List ℤ) (a : ℤ) (h : ∀ x ∈ t, a ≤ x) :
    t.foldl min a = a :=
  le_antisymm (foldl_min_init_le t a) (le_foldl_min t a a (le_refl a) h)

lemma foldl_max_eq_of_mem (t : List ℤ) (a b : ℤ) (hm : b ∈ a :: t)
    (h : ∀ x ∈ a :: t, x ≤ b) : t.foldl max a = b :=
  le_antisymm
    (foldl_max_le t a b (h a (List.mem_cons_self _ _))
      (fun x hx => h x (List.mem_cons_of_mem _ hx)))
    (le_foldl_max_mem t a b hm)

/-- Trimming a 20-minute session bracketed by a sentinel row at 0 ms and one
at 1200000 ms keeps exactly the middle rows when they all lie in the window
[5min, 15min]. -/
lemma trim_sentinels (mid : List Row)
    (hmem : ∀ r ∈ mid, 300000 ≤ r.1 ∧ r.1 ≤ 900000) :
    trimRows (((0 : ℤ), (0 : ℕ), (8192 : ℤ), (0 : ℤ), (0 : ℤ)) ::
      (mid ++ [((1200000 : ℤ), (0 : ℕ), (8192 : ℤ), (0 : ℤ), (0 : ℤ))])) = mid := by
  show ((((0 : ℤ), (0 : ℕ), (8192 : ℤ), (0 : ℤ), (0 : ℤ)) ::
      (mid ++ [((1200000 : ℤ), (0 : ℕ), (8192 : ℤ), (0 : ℤ), (0 : ℤ))])).filter fun t =>
      ((mid ++ [((1200000 : ℤ), (0 : ℕ), (8192 : ℤ), (0 : ℤ), (0 : ℤ))]).map
          (fun t => t.1)).foldl min 0 + 300000 ≤ t.1 ∧
        t.1 ≤ ((mid ++ [((1200000 : ℤ), (0 : ℕ), (8192 : ℤ), (0 : ℤ), (0 : ℤ))]).map
          (fun t => t.1)).foldl max 0 - 300000) = mid
  have hfirst : ((mid ++ [((1200000 : ℤ), (0 : ℕ), (8192 : ℤ), (0 : ℤ), (0 : ℤ))]).map
      (fun t => t.1)).foldl min (0 : ℤ) = 0 := by
    apply foldl_min_eq_init
    intro x hx
    simp only [List.map_append, List.mem_append, List.mem_map] at hx
    rcases hx with ⟨r, hr, rfl⟩ | hx
    · exact le_trans (by norm_num) (hmem r hr).1
    · simp at hx
      omega
  have hlast : ((mid ++ [((1200000 : ℤ), (0 : ℕ), (8192 : ℤ), (0 : ℤ), (0 : ℤ))]).map
      (fun t => t.1)).foldl max (0 : ℤ) = 1200000 := by
    apply foldl_max_eq_of_mem
    · simp
    · intro x hx
      rcases List.mem_cons.mp hx with rfl | hx
      · norm_num
      · simp only [List.map_append, List.mem_append, List.mem_map] at hx
        rcases hx with ⟨r, hr, rfl⟩ | hx
        · exact le_trans (hmem r hr).2 (by norm_num)
        · simp at hx
          omega
  rw [hfirst, hlast]
  norm_num
  intro a sid x y z h
  exact hmem (a, sid, x, y, z) h

/-- The singleton cycle an isolated row produces. -/
def soloCycle (M : MathLib α) (r : Row) : ℤ × List (Reading α) :=
  (r.1, [(r.2.1, r.1, compute_angle_from_accel M r.2.2.1 r.2.2.2.1 r.2.2.2.2)])

lemma groupCycles_isolated_aux (M : MathLib α) (l : List Row) :
    ∀ (cycles : List (ℤ × List (Reading α))) (t0 : ℤ) (cur : List (Reading α)),
      (∀ s ∈ l.head?, 100 < s.1 - t0) →
      l.Chain' (fun r s => 100 < s.1 - r.1) →
      (flushOpen (l.foldl (cycleStep M) (cycles, some (t0, cur))).1
          (l.foldl (cycleStep M) (cycles, some (t0, cur))).2) =
        (cycles ++ [(t0, cur)]) ++ l.map (soloCycle M) := by
  induction l with
  | nil =>
    intro cycles t0 cur _ _
    simp [flushOpen]
  | cons s l ih =>
    intro cycles t0 cur hhead hchain
    obtain ⟨ts, sid, ax, ay, az⟩ := s
    have hgap : 100 < ts - t0 := hhead _ rfl
    have hnew : startsNewB (some (t0, cur)) ts sid = true := by
      simp [startsNewB]
      omega
    have hstep : cycleStep M (cycles, some (t0, cur)) (ts, sid, ax, ay, az) =
        (cycles ++ [(t0, cur)],
          some (ts, [(sid, ts, compute_angle_from_accel M ax ay az)])) := by
      simp [cycleStep, hnew, flushOpen]
    rw [List.foldl_cons, hstep,
      ih (cycles ++ [(t0, cur)]) ts [(sid, ts, compute_angle_from_accel M ax ay az)]
        (fun u hu => (List.chain'_cons'.mp hchain).1 u hu)
        (List.chain'_cons'.mp hchain).2]
    simp [soloCycle]

/-- Cycle reconstruction on rows whose consecutive timestamps are more than
100 ms apart: every row opens (and closes) its own cycle. -/
lemma groupCycles_isolated (M : MathLib α) (rows : List Row)
    (h : rows.Chain' (fun r s => 100 < s.1 - r.1)) :
    groupCycles M rows = rows.map (soloCycle M) := by
  cases rows with
  | nil => rfl
  | cons r rest =>
    obtain ⟨ts, sid, ax, ay, az⟩ := r
    unfold groupCycles
    rw [List.foldl_cons,
      show cycleStep M ([], none) (ts, sid, ax, ay, az) =
        ([], some (ts, [(sid, ts, compute_angle_from_accel M ax ay az)])) from by
          simp [cycleStep, startsNewB, flushOpen]]
    rw [groupCycles_isolated_aux M rest [] ts
      [(sid, ts, compute_angle_from_accel M ax ay az)]
      (fun u hu => (List.chain'_cons'.mp h).1 u hu)
      (List.chain'_cons'.mp h).2]
    simp [soloCycle]

lemma dictSet_not_mem {K V : Type} [DecidableEq K] (acc : List (K × V)) (k : K) (v : V)
    (h : k ∉ acc.map (fun p => p.1)) : dictSet acc k v = acc ++ [(k, v)] := by
  induction acc with
  | nil => rfl
  | cons p rest ih =>
    obtain ⟨k0, v0⟩ := p
    show (if k0 = k then (k, v) :: rest else (k0, v0) :: dictSet rest k v) = _
    rw [if_neg (fun he => h (by simp [he])), ih (fun hm => h (by simp [hm]))]
    simp

lemma foldl_dictSet_map {B K V : Type} [DecidableEq K] (l : List B)
    (key : B → K) (g : B → V) :
    ∀ acc : List (K × V), (acc.map (fun p => p.1) ++ l.map key).Nodup →
      l.foldl (fun acc x => dictSet acc (key x) (g x)) acc =
        acc ++ l.map (fun x => (key x, g x)) := by
  induction l with
  | nil => intro acc _; simp
  | cons x xs ih =>
    intro acc hnd
    have hk : key x ∉ acc.map (fun p => p.1) := by
      intro hm
      exact (List.disjoint_of_nodup_append hnd) hm (by simp)
    rw [List.foldl_cons, dictSet_not_mem acc (key x) (g x) hk,
      ih (acc ++ [(key x, g x)]) (by
        simp only [List.map_append, List.map_cons, List.map_nil, List.map_cons] at hnd ⊢
        rw [List.append_assoc]
        simpa using hnd)]
    simp

lemma assocFind_map_key {B V : Type} {K : Type} [DecidableEq K]
    (l : List B) (key : B → K) (g : B → V)
    (hnd : (l.map key).Nodup) (c : B) (hc : c ∈ l) :
    assocFind (l.map (fun x => (key x, g x))) (key c) = some (g c) := by
  induction l with
  | nil => exact absurd hc (List.not_mem_nil c)
  | cons x xs ih =>
    show (if key x = key c then some (g x) else
      assocFind (xs.map (fun x => (key x, g x))) (key c)) = some (g c)
    rcases List.mem_cons.mp hc with rfl | hc'
    · rw [if_pos rfl]
    · have hxc : key x ≠ key c := by
        intro he
        have : key c ∈ xs.map key := List.mem_map.mpr ⟨c, hc', rfl⟩
        rw [← he] at this
        exact (List.nodup_cons.mp (by simpa using hnd)).1 this
      rw [if_neg hxc]
      exact ih (List.nodup_cons.mp (by simpa using hnd)).2 hc'

lemma everyNth_one {B : Type} (l : List B) : everyNth 1 l = l := by
  unfold everyNth
  rw [List.filter_eq_self.mpr (by intro p _; simp [Nat.mod_one]), List.enum_map_snd]

lemma mem_everyNth {B : Type} {l : List B} {s : ℕ} {x : B} (hx : x ∈ everyNth s l) :
    ∃ i, i % s = 0 ∧ l[i]? = some x := by
  unfold everyNth at hx
  obtain ⟨⟨i, y⟩, hmem, rfl⟩ := List.mem_map.mp hx
  obtain ⟨henum, hmod⟩ := List.mem_filter.mp hmem
  exact ⟨i, by simpa using hmod, (List.mem_enum_iff_getElem?.mp henum)⟩

lemma filterMap_eq_map_of {B C : Type} (l : List B) (f : B → Option C) (g : B → C)
    (h : ∀ x ∈ l, f x = some (g x)) : l.filterMap f = l.map g := by
  induction l with
  | nil => rfl
  | cons x xs ih =>
    rw [List.map_cons, List.filterMap_cons, h x (List.mem_cons_self _ _),
      ih (fun y hy => h y (List.mem_cons_of_mem _ hy))]

/-- `time_frames` on isolated rows with distinct timestamps: one singleton
frame per row, in row order. -/
lemma timeFramesOf_isolated (M : MathLib α) (rows : List Row)
    (hch : rows.Chain' (fun r s => 100 < s.1 - r.1))
    (hnd : (rows.map (fun r => r.1)).Nodup) :
    timeFramesOf M rows = rows.map (fun r =>
      (r.1, [(r.2.1, compute_angle_from_accel M r.2.2.1 r.2.2.2.1 r.2.2.2.2)])) := by
  unfold timeFramesOf
  rw [groupCycles_isolated M rows hch, List.foldl_map]
  simp only [soloCycle, List.map_cons, List.map_nil]
  rw [foldl_dictSet_map rows (fun r => r.1)
    (fun r => [(r.2.1, compute_angle_from_accel M r.2.2.1 r.2.2.2.1 r.2.2.2.2)]) []
    (by simpa using hnd)]
  simp

/-- `sorted(time_frames.keys())` on isolated, already sorted rows. -/
lemma timestampsOf_isolated (M : MathLib α) (rows : List Row)
    (hch : rows.Chain' (fun r s => 100 < s.1 - r.1))
    (hnd : (rows.map (fun r => r.1)).Nodup)
    (hsort : (rows.map (fun r => r.1)).Sorted (fun a b => a ≤ b)) :
    timestampsOf M rows = rows.map (fun r => r.1) := by
  unfold timestampsOf
  rw [timeFramesOf_isolated M rows hch hnd, List.map_map]
  exact List.Sorted.insertionSort_eq (by simpa using hsort)

lemma foldl_addReading_keys_stable {β V : Type} (key : β → ℕ) (val : β → V) (R : List β) :
    ∀ acc : List (ℕ × List V), (∀ r ∈ R, key r ∈ acc.map (fun p => p.1)) →
      ((R.foldl (fun m r => addReading m (key r) (val r)) acc).map (fun p => p.1)) =
        acc.map (fun p => p.1) := by
  induction R with
  | nil => intro acc _; rfl
  | cons r R ih =>
    intro acc hall
    rw [List.foldl_cons]
    have hk : (addReading acc (key r) (val r)).map (fun p => p.1) =
        acc.map (fun p => p.1) := by
      rw [addReading_keys, if_pos (hall r (List.mem_cons_self _ _))]
    rw [ih (addReading acc (key r) (val r)) (by
      intro u hu
      rw [hk]
      exact hall u (List.mem_cons_of_mem _ hu))]
    exact hk

lemma foldl_addReading_keys_const {β V : Type} (key : β → ℕ) (val : β → V)
    (R : List β) (k0 : ℕ) (hall : ∀ r ∈ R, key r = k0) :
    ∀ r0 ∈ R, ((R.foldl (fun m r => addReading m (key r) (val r))
      ([] : List (ℕ × List V))).map (fun p => p.1)) = [k0] := by
  cases R with
  | nil => intro r0 h; exact absurd h (List.not_mem_nil r0)
  | cons r R =>
    intro r0 _
    rw [List.foldl_cons]
    have hacc : (addReading [] (key r) (val r)).map (fun p => p.1) = [k0] := by
      show [(key r, [val r])].map (fun p => p.1) = [k0]
      simp [hall r (List.mem_cons_self _ _)]
    rw [foldl_addReading_keys_stable key val R (addReading [] (key r) (val r)) (by
      intro u hu
      rw [hacc]
      simp [hall u (List.mem_cons_of_mem _ hu)])]
    exact hacc

lemma spineCurvesOf_def [DecidableEq α] (M : MathLib α) (f : ℕ → ℕ) (rows2 : List Row) :
    spineCurvesOf M f rows2 =
      (everyNth (f (timestampsOf M rows2).length) (timestampsOf M rows2)).filterMap
        (frameFn M (timeFramesOf M rows2) (sensorOrderOf M rows2)) := rfl

lemma buildResult_spine_curves [DecidableEq α] (M : MathLib α) (f : ℕ → ℕ)
    (rows2 : List Row) : (buildResult M f rows2).spine_curves = spineCurvesOf M f rows2 := rfl

lemma buildResult_max_curvature [DecidableEq α] (M : MathLib α) (f : ℕ → ℕ)
    (rows2 : List Row) :
    (buildResult M f rows2).max_curvature = maxCurvatureOf M f rows2 := rfl

lemma analyze_eq_some [DecidableEq α] (M : MathLib α) (rows : List Row)
    (h1 : rows ≠ []) (h2 : trimRows rows ≠ []) :
    analyze M rows = some (buildResult M (fun n => max 1 (n / 500)) (trimRows rows)) := by
  unfold analyze analyzeGen
  rw [if_neg h1]
  simp only
  rw [if_neg h2]

lemma analyzeUnsampled_eq_some [DecidableEq α] (M : MathLib α) (rows : List Row)
    (h1 : rows ≠ []) (h2 : trimRows rows ≠ []) :
    analyzeUnsampled M rows = some (buildResult M (fun _ => 1) (trimRows rows)) := by
  unfold analyzeUnsampled analyzeGen
  rw [if_neg h1]
  simp only
  rw [if_neg h2]

/-- 501 one-sensor rows, 200 ms apart, inside the [5min, 15min] window;
`Accel_X = -8192` forces the angle 180 on every row. -/
def cap501Mid : List Row :=
  (List.range 501).map (fun (k : ℕ) => ((300000 + 200 * (k : ℤ)), (0 : ℕ), (-8192 : ℤ), 0, 0))

/-- The 501-cycle session bracketed by two sentinel rows. -/
def cap501Rows : List Row :=
  ((0 : ℤ), (0 : ℕ), (8192 : ℤ), (0 : ℤ), (0 : ℤ)) ::
    (cap501Mid ++ [((1200000 : ℤ), (0 : ℕ), (8192 : ℤ), (0 : ℤ), (0 : ℤ))])

lemma cap501Mid_mem {r : Row} (hr : r ∈ cap501Mid) :
    ∃ k : ℕ, k < 501 ∧ r = ((300000 + 200 * (k : ℤ)), (0 : ℕ), (-8192 : ℤ), 0, 0) := by
  obtain ⟨k, hk, rfl⟩ := List.mem_map.mp hr
  exact ⟨k, List.mem_range.mp hk, rfl⟩

lemma cap501Mid_chain :
    cap501Mid.Chain' (fun r s => 100 < s.1 - r.1) := by
  rw [List.chain'_iff_get]
  intro i hi
  simp only [cap501Mid, List.length_map, List.length_range] at hi
  simp only [cap501Mid, List.get_map, List.get_range]
  omega

lemma cap501Mid_ts_nodup : (cap501Mid.map (fun r => r.1)).Nodup := by
  unfold cap501Mid
  rw [List.map_map]
  exact List.Nodup.map (fun a b h => by
    simp only [Function.comp] at h
    omega) (List.nodup_range 501)

lemma cap501Mid_ts_sorted :
    (cap501Mid.map (fun r => r.1)).Sorted (fun a b => a ≤ b) := by
  unfold cap501Mid
  rw [List.map_map]
  exact List.pairwise_map.mpr (List.Pairwise.imp (fun h => by
    simp only [Function.comp_apply]
    omega) (List.pairwise_lt_range 501))

lemma cap501_angle : compute_angle_from_accel qLib (-8192) 0 0 = 180 := by decide

lemma cap501_spine_length :
    (spineCurvesOf qLib (fun n => max 1 (n / 500)) cap501Mid).length = 501 := by
  have hts : timestampsOf qLib cap501Mid = cap501Mid.map (fun r => r.1) :=
    timestampsOf_isolated qLib cap501Mid cap501Mid_chain cap501Mid_ts_nodup
      cap501Mid_ts_sorted
  have hlen : (cap501Mid.map (fun r => r.1)).length = 501 := by
    rw [List.length_map]
    unfold cap501Mid
    rw [List.length_map, List.length_range]
  have hso : sensorOrderOf qLib cap501Mid = [0] := by
    unfold sensorOrderOf sensorDataOf
    rw [readingsOf_eq_map]
    rw [List.foldl_map]
    have hkeys := foldl_addReading_keys_const
      (fun r : Reading ℚ => r.1) (fun r : Reading ℚ => (((r.2.1 : ℤ) : ℚ) / 1000, r.2.2, r.2.1))
      (cap501Mid.map (toReading qLib)) 0
      (by
        intro u hu
        obtain ⟨r, hr, rfl⟩ := List.mem_map.mp hu
        obtain ⟨k, _, rfl⟩ := cap501Mid_mem hr
        rfl)
      ((toReading qLib ((300000 + 200 * ((0 : ℕ) : ℤ)), (0 : ℕ), (-8192 : ℤ), 0, 0)))
      (by
        apply List.mem_map.mpr
        refine ⟨_, ?_, rfl⟩
        unfold cap501Mid
        exact List.mem_map.mpr ⟨0, List.mem_range.mpr (by norm_num), rfl⟩)
    rw [List.foldl_map] at hkeys
    rw [hkeys]
    decide
  have htf := timeFramesOf_isolated qLib cap501Mid cap501Mid_chain cap501Mid_ts_nodup
  rw [spineCurvesOf_def]
  rw [hts, hso, htf]
  simp only [hlen]
  rw [show (max 1 (501 / 500 : ℕ)) = 1 from by decide, everyNth_one]
  rw [List.filterMap_map]
  rw [filterMap_eq_map_of _ _
    (fun r : Row => (⟨((r.1 : ℤ) : ℚ) / 1000,
      build_spine_from_angles qLib [(180 : ℚ)] 9,
      [(180 : ℚ)]⟩ : SpineFrame ℚ)) ?pointwise]
  · rw [List.length_map]
    unfold cap501Mid
    rw [List.length_map, List.length_range]
  case pointwise =>
    intro r hr
    have hfind : assocFind (cap501Mid.map (fun r =>
        (r.1, [(r.2.1, compute_angle_from_accel qLib r.2.2.1 r.2.2.2.1 r.2.2.2.2)]))) r.1 =
        some [(r.2.1, compute_angle_from_accel qLib r.2.2.1 r.2.2.2.1 r.2.2.2.2)] :=
      assocFind_map_key cap501Mid (fun r => r.1) _ cap501Mid_ts_nodup r hr
    obtain ⟨k, hk, rfl⟩ := cap501Mid_mem hr
    show frameFn qLib _ [0] _ = _
    unfold frameFn
    rw [hfind]
    simp only [cap501_angle, List.map_cons, List.map_nil]
    rw [show assocFind [((0 : ℕ), (180 : ℚ))] 0 = some 180 from rfl]
    simp only [Option.getD_some]
    rw [if_pos (by decide)]

/-- Claim C3: the cap of 500 sampled frames is violated.  On `cap501Rows`
the 501 retained rows form 501 cycles, the stride is max(1, 501 // 500) = 1,
every frame is emitted, and `spine_curves` has length 501 > 500 — contrary
to the claim and to the code's own comment (line 206, `# Max 500 frames`). -/
theorem frame_cap_overflow :
    (analyze qLib cap501Rows).map (fun r => r.spine_curves.length) = some 501 := by
  have htrim : trimRows cap501Rows = cap501Mid := by
    apply trim_sentinels
    intro r hr
    obtain ⟨k, hk, rfl⟩ := cap501Mid_mem hr
    constructor <;> [omega; omega]
  have hne : cap501Rows ≠ [] := by simp [cap501Rows]
  have hne2 : cap501Mid ≠ [] := by
    intro h0
    have h5 : cap501Mid.length = 501 := by
      unfold cap501Mid
      rw [List.length_map, List.length_range]
    rw [h0] at h5
    simp at h5
  rw [analyze_eq_some qLib cap501Rows hne (htrim ▸ hne2), htrim, Option.map_some']
  rw [buildResult_spine_curves, cap501_spine_length]

/-- A rational mock of the math library for the sampling counterexample: it
agrees with the real primitives on every value the example feeds them
(sin 0 = 0, sin 90deg = 1, cos 0 = 1, cos 90deg = 0), and returns the 90-degree
angle for the one atan2 call the example makes on a non-snapped sample. -/
def qLib4 : MathLib ℚ :=
  ⟨fun d => if d = 90 then 1 else 0,
   fun d => if d = 90 then 0 else 1,
   fun _ x => if x = 10 then 90 else 0,
   fun q => q⟩

/-- Row k of the sampling counterexample: 200 ms apart; sensor 1 with a
90-degree attitude at k = 501, sensor 2 at k = 502, sensor 0 flat otherwise. -/
def strideRow (k : ℕ) : Row :=
  ((300000 + 200 * (k : ℤ)),
   (if k = 501 then 1 else if k = 502 then 2 else 0 : ℕ),
   (if k = 501 then 0 else 8192 : ℤ),
   (if k = 501 then 8192 else 0 : ℤ),
   (0 : ℤ))

/-- The 1001 retained rows of the sampling counterexample. -/
def strideMid : List Row := (List.range 1001).map strideRow

/-- The full session: the 1001 rows bracketed by two sentinel rows. -/
def strideRows : List Row :=
  ((0 : ℤ), (0 : ℕ), (8192 : ℤ), (0 : ℤ), (0 : ℤ)) ::
    (strideMid ++ [((1200000 : ℤ), (0 : ℕ), (8192 : ℤ), (0 : ℤ), (0 : ℤ))])

lemma strideRow_ts (k : ℕ) : (strideRow k).1 = 300000 + 200 * (k : ℤ) := rfl

lemma strideRow_angle (k : ℕ) :
    compute_angle_from_accel qLib4 (strideRow k).2.2.1 (strideRow k).2.2.2.1
      (strideRow k).2.2.2.2 = if k = 501 then (90 : ℚ) else 0 := by
  by_cases h : k = 501
  · rw [if_pos h]
    subst h
    show compute_angle_from_accel qLib4 0 8192 0 = 90
    decide
  · rw [if_neg h]
    have ha : (strideRow k).2.2.1 = 8192 := by simp [strideRow, h]
    have hb : (strideRow k).2.2.2.1 = 0 := by simp [strideRow, h]
    have hc : (strideRow k).2.2.2.2 = 0 := rfl
    rw [ha, hb, hc]
    decide

lemma strideMid_mem {r : Row} (hr : r ∈ strideMid) :
    ∃ k : ℕ, k < 1001 ∧ r = strideRow k := by
  obtain ⟨k, hk, rfl⟩ := List.mem_map.mp hr
  exact ⟨k, List.mem_range.mp hk, rfl⟩

set_option maxRecDepth 40000 in
lemma strideMid_chain :
    strideMid.Chain' (fun r s => 100 < s.1 - r.1) := by
  rw [List.chain'_iff_get]
  intro i hi
  simp only [strideMid, List.length_map, List.length_range] at hi
  simp only [strideMid, List.get_map, List.get_range, strideRow_ts]
  omega

lemma strideMid_ts_nodup : (strideMid.map (fun r => r.1)).Nodup := by
  unfold strideMid
  rw [List.map_map]
  exact List.Nodup.map (fun a b h => by
    simp only [Function.comp, strideRow_ts] at h
    omega) (List.nodup_range 1001)

lemma strideMid_ts_sorted :
    (strideMid.map (fun r => r.1)).Sorted (fun a b => a ≤ b) := by
  unfold strideMid
  rw [List.map_map]
  exact List.pairwise_map.mpr (List.Pairwise.imp (fun h => by
    simp only [Function.comp_apply, strideRow_ts]
    omega) (List.pairwise_lt_range 1001))

lemma maxCurvatureOf_def [DecidableEq α] (M : MathLib α) (f : ℕ → ℕ) (rows2 : List Row) :
    maxCurvatureOf M f rows2 =
      (spineCurvesOf M f rows2).foldl (fun acc c => curvatureFold M acc c.points) 0 := rfl

lemma strideMid_sensorOrder : sensorOrderOf qLib4 strideMid = [0, 1, 2] := by
  have hkeys := foldl_addReading_keys (fun r : Reading ℚ => r.1)
    (fun r : Reading ℚ => (((r.2.1 : ℤ) : ℚ) / 1000, r.2.2, r.2.1))
    (readingsOf qLib4 strideMid)
  have hnd : ((sensorDataOf qLib4 strideMid).map (fun p => p.1)).Nodup :=
    (hkeys []).1 (by simp)
  have hmem : ∀ k, k ∈ (sensorDataOf qLib4 strideMid).map (fun p => p.1) ↔
      (k = 0 ∨ k = 1 ∨ k = 2) := by
    intro k
    rw [show sensorDataOf qLib4 strideMid = (readingsOf qLib4 strideMid).foldl
      (fun m r => addReading m r.1 (((r.2.1 : ℤ) : ℚ) / 1000, r.2.2, r.2.1)) [] from rfl]
    rw [(hkeys []).2 k]
    simp only [List.map_nil, List.not_mem_nil, false_or]
    rw [readingsOf_eq_map, List.map_map]
    constructor
    · intro hk
      obtain ⟨r, hr, hkr⟩ := List.mem_map.mp hk
      obtain ⟨j, hj, rfl⟩ := strideMid_mem hr
      rw [show ((fun r : Reading ℚ => r.1) ∘ toReading qLib4) (strideRow j) =
        (strideRow j).2.1 from rfl] at hkr
      subst hkr
      by_cases h1 : j = 501
      · simp [strideRow, h1]
      · by_cases h2 : j = 502 <;> simp [strideRow, h1, h2]
    · intro hk
      apply List.mem_map.mpr
      rcases hk with rfl | rfl | rfl
      · exact ⟨strideRow 0, List.mem_map.mpr ⟨0, List.mem_range.mpr (by norm_num), rfl⟩, rfl⟩
      · exact ⟨strideRow 501, List.mem_map.mpr ⟨501, List.mem_range.mpr (by norm_num), rfl⟩, rfl⟩
      · exact ⟨strideRow 502, List.mem_map.mpr ⟨502, List.mem_range.mpr (by norm_num), rfl⟩, rfl⟩
  have hperm : (List.insertionSort (fun a b => a ≤ b)
      ((sensorDataOf qLib4 strideMid).map (fun p => p.1))).Perm [0, 1, 2] := by
    refine (List.perm_insertionSort _ _).trans ?_
    apply List.perm_of_nodup_nodup_toFinset_eq hnd (by decide)
    ext x
    simp only [List.mem_toFinset, hmem x]
    simp
  exact List.eq_of_perm_of_sorted hperm
    (List.sorted_insertionSort _ _) (by decide)

lemma frameFn_some [DecidableEq α] (M : MathLib α) (tf : List (ℤ × List (ℕ × α)))
    (so : List ℕ) (ts : ℤ) (fr : List (ℕ × α)) (h : assocFind tf ts = some fr) :
    frameFn M tf so ts =
      (if ((so.map (fun sid => (assocFind fr sid).getD 0)).any
          fun a => decide (a ≠ 0)) = true then
        some ⟨((ts : ℤ) : α) / 1000,
          build_spine_from_angles M (so.map (fun sid => (assocFind fr sid).getD 0)) 9,
          so.map (fun sid => (assocFind fr sid).getD 0)⟩
      else none) := by
  unfold frameFn
  rw [h]

/-- The frame the sampler produces (or skips) at the k-th cycle timestamp of
the counterexample: only cycle 501 (sensor 1, angle 90) yields a frame. -/
lemma strideMid_frameFn (k : ℕ) (hk : k < 1001) :
    frameFn qLib4 (strideMid.map (fun r => (r.1,
        [(r.2.1, compute_angle_from_accel qLib4 r.2.2.1 r.2.2.2.1 r.2.2.2.2)])))
      [0, 1, 2] ((strideRow k).1) =
      (if k = 501 then
        some ⟨(((strideRow k).1 : ℤ) : ℚ) / 1000,
          build_spine_from_angles qLib4 [0, 90, 0] 9, [0, 90, 0]⟩
      else none) := by
  have hfind : assocFind (strideMid.map (fun r => (r.1,
      [(r.2.1, compute_angle_from_accel qLib4 r.2.2.1 r.2.2.2.1 r.2.2.2.2)])))
      ((strideRow k).1) = some [((strideRow k).2.1,
        compute_angle_from_accel qLib4 (strideRow k).2.2.1 (strideRow k).2.2.2.1
          (strideRow k).2.2.2.2)] :=
    assocFind_map_key strideMid (fun r => r.1)
      (fun r => [(r.2.1, compute_angle_from_accel qLib4 r.2.2.1 r.2.2.2.1 r.2.2.2.2)])
      strideMid_ts_nodup (strideRow k)
      (List.mem_map.mpr ⟨k, List.mem_range.mpr hk, rfl⟩)
  rw [frameFn_some qLib4 _ _ _ _ hfind, strideRow_angle k]
  by_cases h1 : k = 501
  · rw [if_pos h1, if_pos h1]
    have hsid : (strideRow k).2.1 = 1 := by simp [strideRow, h1]
    rw [hsid]
    rw [show ([0, 1, 2].map (fun sid =>
        (assocFind [((1 : ℕ), (90 : ℚ))] sid).getD 0)) = [0, 90, 0] from rfl]
    rw [if_pos (by decide)]
  · rw [if_neg h1, if_neg h1]
    by_cases h2 : k = 502
    · have hsid : (strideRow k).2.1 = 2 := by simp [strideRow, h1, h2]
      rw [hsid]
      rw [show ([0, 1, 2].map (fun sid =>
          (assocFind [((2 : ℕ), (0 : ℚ))] sid).getD 0)) = [0, 0, 0] from rfl]
      rw [if_neg (by decide)]
    · have hsid : (strideRow k).2.1 = 0 := by simp [strideRow, h1, h2]
      rw [hsid]
      rw [show ([0, 1, 2].map (fun sid =>
          (assocFind [((0 : ℕ), (0 : ℚ))] sid).getD 0)) = [0, 0, 0] from rfl]
      rw [if_neg (by decide)]

lemma strideMid_keys_getElem (i : ℕ) (hi : i < 1001) :
    (strideMid.map (fun r => r.1))[i]? = some ((strideRow i).1) := by
  unfold strideMid
  rw [List.map_map, List.getElem?_map, List.getElem?_range hi]
  rfl

/-- With the source's stride (2 here), every sampled cycle of the
counterexample is skipped: the sampled indices are even, and the only
frame-producing cycle sits at index 501. -/
lemma strideMid_sampled_empty :
    spineCurvesOf qLib4 (fun n => max 1 (n / 500)) strideMid = [] := by
  have hts := timestampsOf_isolated qLib4 strideMid strideMid_chain strideMid_ts_nodup
    strideMid_ts_sorted
  have htf := timeFramesOf_isolated qLib4 strideMid strideMid_chain strideMid_ts_nodup
  rw [spineCurvesOf_def, hts, strideMid_sensorOrder, htf]
  have hlen : (strideMid.map (fun r => r.1)).length = 1001 := by
    rw [List.length_map]
    unfold strideMid
    rw [List.length_map, List.length_range]
  simp only [hlen]
  rw [show (max 1 (1001 / 500 : ℕ)) = 2 from by decide]
  rw [List.filterMap_eq_nil]
  intro ts hts2
  obtain ⟨i, hmod, hget⟩ := mem_everyNth hts2
  have hi : i < 1001 := by
    by_contra hge
    rw [List.getElem?_eq_none (by
      rw [List.length_map]
      unfold strideMid
      rw [List.length_map, List.length_range]
      omega)] at hget
    exact Option.noConfusion hget
  rw [strideMid_keys_getElem i hi] at hget
  obtain rfl : (strideRow i).1 = ts := Option.some.inj hget
  rw [strideMid_frameFn i hi, if_neg (by omega)]

/-- With stride 1 (no sampling) exactly one frame is emitted: the one at
index 501, built from the angles [0, 90, 0]. -/
lemma strideMid_unsampled :
    spineCurvesOf qLib4 (fun _ => 1) strideMid =
      [⟨(((strideRow 501).1 : ℤ) : ℚ) / 1000,
        build_spine_from_angles qLib4 [0, 90, 0] 9, [0, 90, 0]⟩] := by
  have hts := timestampsOf_isolated qLib4 strideMid strideMid_chain strideMid_ts_nodup
    strideMid_ts_sorted
  have htf := timeFramesOf_isolated qLib4 strideMid strideMid_chain strideMid_ts_nodup
  rw [spineCurvesOf_def, hts, strideMid_sensorOrder, htf, everyNth_one]
  rw [show strideMid.map (fun r => r.1) =
    (List.range 1001).map (fun k => (strideRow k).1) from by
      unfold strideMid
      rw [List.map_map]
      rfl]
  rw [List.filterMap_map]
  rw [List.filterMap_congr (g := fun k =>
    (if k = 501 then
      some (⟨(((strideRow k).1 : ℤ) : ℚ) / 1000,
        build_spine_from_angles qLib4 [0, 90, 0] 9, [0, 90, 0]⟩ : SpineFrame ℚ)
    else none)) ?pointwise]
  case pointwise =>
    intro k hkmem
    exact strideMid_frameFn k (List.mem_range.mp hkmem)
  rw [show (1001 : ℕ) = 501 + 500 from by norm_num, List.range_add,
    List.filterMap_append]
  rw [List.filterMap_eq_nil.mpr ?partA]
  case partA =>
    intro k hkmem
    have hk : k < 501 := List.mem_range.mp hkmem
    rw [if_neg (by omega)]
  rw [show (500 : ℕ) = 1 + 499 from by norm_num, List.range_add, List.map_append,
    List.filterMap_append]
  rw [show (List.map (fun x => 501 + x) (List.range 1)) = [501] from rfl]
  rw [List.filterMap_cons]
  rw [if_pos rfl]
  rw [List.filterMap_nil]
  rw [List.filterMap_eq_nil.mpr ?partC]
  case partC =>
    intro j hjmem
    obtain ⟨k, hkmem, rfl⟩ := List.mem_map.mp hjmem
    obtain ⟨k2, hk2mem, rfl⟩ := List.mem_map.mp hkmem
    rw [if_neg (by omega)]
  rfl

unseal Rat.mul Rat.inv Rat.add Rat.sub in
/-- Claim C4 is false as stated: on the 1001-cycle session `strideRows` the
stride is 2, the only frame with nonzero angles (index 501) is skipped, and
`max_curvature` computed by the code (0) differs from the value computed with
no sampling (the curvature of the one emitted frame). -/
theorem sampling_changes_max_curvature :
    (analyze qLib4 strideRows).map (fun r => r.max_curvature) ≠
      (analyzeUnsampled qLib4 strideRows).map (fun r => r.max_curvature) := by
  have htrim : trimRows strideRows = strideMid := by
    apply trim_sentinels
    intro r hr
    obtain ⟨k, hk, rfl⟩ := strideMid_mem hr
    rw [strideRow_ts]
    omega
  have hne : strideRows ≠ [] := by simp [strideRows]
  have hne2 : strideMid ≠ [] := by
    intro h0
    have h5 : strideMid.length = 1001 := by
      unfold strideMid
      rw [List.length_map, List.length_range]
    rw [h0] at h5
    simp at h5
  rw [analyze_eq_some qLib4 strideRows hne (htrim ▸ hne2),
    analyzeUnsampled_eq_some qLib4 strideRows hne (htrim ▸ hne2), htrim,
    Option.map_some', Option.map_some']
  simp only [buildResult_max_curvature]
  rw [maxCurvatureOf_def, maxCurvatureOf_def, strideMid_sampled_empty,
    strideMid_unsampled]
  simp only [List.foldl_nil, List.foldl_cons]
  intro heq
  have h0 : (0 : ℚ) =
      curvatureFold qLib4 0 (build_spine_from_angles qLib4 [0, 90, 0] 9) :=
    Option.some.inj heq
  have hval : curvatureFold qLib4 0 (build_spine_from_angles qLib4 [0, 90, 0] 9) =
      1 / 2 := by decide
  rw [hval] at h0
  norm_num at h0

end SymbolicEvaluation
